import Mathlib

/-!
# Verification of the bharat-courts retrieval engine

Shallow embedding of the session/CAPTCHA-gated retrieval engine of the
bharat-courts package: the rate-limited transport retry loop
(`bharat_courts/http.py`), the response parsers
(`bharat_courts/hcservices/parser.py`, `bharat_courts/judgments/parser.py`),
the listing parsers embedded in `HCServicesClient.list_benches` /
`list_case_types`, the pagination math of `models.SearchResult`, and the
captcha-retry protocols of `HCServicesClient._post_with_captcha_retry` and
`JudgmentSearchClient.search`.

Python strings are modelled as Lean `String`; Python ints as `Int` (or `Nat`
where the source value is a count); decoded JSON as an explicit `JVal` tree
(the stdlib `json.loads` of nested JSON-encoded strings is passed in as an
oracle parameter); BeautifulSoup documents as an explicit `Doc` structure
carrying the features the parsers inspect (tables with id/class and rows of
cells, pagination divs, spans, anchors); `await`ed network I/O as oracle
functions giving each request's outcome, with the externally visible actions
(session inits, challenge fetches, sleeps, request attempts) collected into
an explicit trace list.
-/

namespace BharatCourts

/-! ## String helpers (Python `str` operations used by the source)

All of them are implemented by structural recursion over `String.data`
(core's own `String.trim`, `toLower`, `splitOn`, … are compiled externs
whose Lean models do not reduce inside the kernel).  The portal responses
are ASCII, so the ASCII case tables of `Char.toLower` et al. coincide with
Python's. -/

/-- Membership of `needle` as a contiguous sublist of `hay`
(Python `needle in hay` on strings, at the char-list level). -/
def listContainsSub (needle : List Char) : List Char → Bool
  | [] => needle.isEmpty
  | c :: rest => needle.isPrefixOf (c :: rest) || listContainsSub needle rest

/-- Python `needle in hay` for strings. -/
def containsSub (needle hay : String) : Bool :=
  listContainsSub needle.toList hay.toList

/-- Python `s.lower()`. -/
def strLower (s : String) : String :=
  String.mk (s.toList.map Char.toLower)

/-- Python `s.strip()`: drop leading and trailing whitespace. -/
def pyStrip (s : String) : String :=
  String.mk (((s.toList.dropWhile Char.isWhitespace).reverse.dropWhile
    Char.isWhitespace).reverse)

/-- Python `s.lstrip(ch)`: drop leading occurrences of one char. -/
def lstripChar (ch : Char) (s : String) : String :=
  String.mk (s.toList.dropWhile (· = ch))

/-- Python `s.strip(ch)`: drop leading and trailing occurrences of one char. -/
def stripChar (ch : Char) (s : String) : String :=
  String.mk (((s.toList.dropWhile (· = ch)).reverse.dropWhile (· = ch)).reverse)

/-- Python `s.startswith(pre)`. -/
def strStartsWith (s pre : String) : Bool :=
  pre.toList.isPrefixOf s.toList

/-- Splitting on a one-char separator (Python `s.split(sep)` /
Lean `splitOn` for a single-char separator); `cur` holds the current piece
in reverse. -/
def splitCharAux (sep : Char) (cur : List Char) : List Char → List (List Char)
  | [] => [cur.reverse]
  | c :: rest =>
    if c = sep then cur.reverse :: splitCharAux sep [] rest
    else splitCharAux sep (c :: cur) rest

/-- Python `s.split(sep)` for a one-char separator. -/
def splitChar (sep : Char) (s : String) : List String :=
  (splitCharAux sep [] s.toList).map String.mk

/-- The maximal non-whitespace words of a char list in order. -/
def wordsAux (cur : List Char) : List Char → List (List Char)
  | [] => if cur.isEmpty then [] else [cur.reverse]
  | c :: rest =>
    if c.isWhitespace then
      if cur.isEmpty then wordsAux [] rest else cur.reverse :: wordsAux [] rest
    else wordsAux (c :: cur) rest

/-- `_clean_text` (hcservices/parser.py line 46, judgments/parser.py line 29):
`re.sub(r"\s+", " ", text.strip())`, i.e. the whitespace-delimited words of
the text joined by single spaces. -/
def cleanText (s : String) : String :=
  String.intercalate " " ((wordsAux [] s.toList).map String.mk)

/-- The digits of a decimal literal folded into a number. -/
def digitsToNat (ds : List Char) : Nat :=
  ds.foldl (fun a c => a * 10 + (c.toNat - 48)) 0

/-- A non-empty all-digit char list as a number. -/
def decDigits : List Char → Option Nat
  | [] => none
  | ds => if ds.all Char.isDigit then some (digitsToNat ds) else none

/-- Python `int(str)`: strip whitespace, optional sign, decimal digits;
`none` models the `ValueError` raise. -/
def pyIntStr (s : String) : Option Int :=
  match (pyStrip s).toList with
  | '+' :: ds => (decDigits ds).map Int.ofNat
  | '-' :: ds => (decDigits ds).map (fun n => -(n : Int))
  | ds => (decDigits ds).map Int.ofNat

/-! ## Dates: `_parse_date` against `DATE_FORMAT = "%d-%m-%Y"` -/

/-- A calendar date as produced by `datetime.strptime(..., "%d-%m-%Y").date()`. -/
structure PDate where
  day : Nat
  month : Nat
  year : Nat
deriving DecidableEq, Repr

/-- Gregorian leap-year rule used by `datetime`. -/
def isLeap (y : Nat) : Bool :=
  y % 4 = 0 && (y % 100 ≠ 0 || y % 400 = 0)

/-- Days in a month, as validated by the `datetime` constructor. -/
def daysInMonth (m y : Nat) : Nat :=
  if m = 2 then (if isLeap y then 29 else 28)
  else if m = 4 ∨ m = 6 ∨ m = 9 ∨ m = 11 then 30
  else 31

/-- `_parse_date` (hcservices/parser.py lines 34-43 and judgments/parser.py
lines 18-26): strip; empty gives `None`; otherwise
`datetime.strptime(text, "%d-%m-%Y")`, which matches day and month as one or
two digits, the year as exactly four digits, requires the whole string to be
consumed, and validates the day against the month length; failure gives
`None`. -/
def parseDate (s : String) : Option PDate :=
  let t := (pyStrip s).toList
  if t.isEmpty then none
  else
    match splitCharAux '-' [] t with
    | [d, m, y] =>
      if !d.isEmpty && d.length ≤ 2 && d.all Char.isDigit &&
         !m.isEmpty && m.length ≤ 2 && m.all Char.isDigit &&
         y.length = 4 && y.all Char.isDigit then
        let dn := digitsToNat d
        let mn := digitsToNat m
        let yn := digitsToNat y
        if 1 ≤ dn && 1 ≤ mn && mn ≤ 12 && 1 ≤ yn && dn ≤ daysInMonth mn yn then
          some ⟨dn, mn, yn⟩
        else none
      else none
    | _ => none

/-- `date.isoformat()` for a `PDate` (used by `_parse_case_status_html` for
the `filing_number` back-fill). -/
def isoDate (d : PDate) : String :=
  let pad2 : Nat → String := fun n => if n < 10 then "0" ++ toString n else toString n
  let pad4 : Nat → String := fun n =>
    if n < 10 then "000" ++ toString n
    else if n < 100 then "00" ++ toString n
    else if n < 1000 then "0" ++ toString n
    else toString n
  pad4 d.year ++ "-" ++ pad2 d.month ++ "-" ++ pad2 d.day

/-! ## JSON values and the structured envelope of `showRecords` responses -/

/-- Decoded JSON value as produced by `json.loads`.  JSON numbers are
modelled as integers (the envelope fields the source reads are ints or
int-valued strings; floats do not occur there). -/
inductive JVal where
  | jnull : JVal
  | jbool : Bool → JVal
  | jnum : Int → JVal
  | jstr : String → JVal
  | jarr : List JVal → JVal
  | jobj : List (String × JVal) → JVal

/-- Python `dict.get(key)` on a decoded JSON object (keys are unique in a
Python dict; the first binding wins). -/
def jlookup (fields : List (String × JVal)) (key : String) : Option JVal :=
  (fields.find? (fun kv => kv.1 = key)).map (·.2)

/-- Python truthiness of a decoded JSON value. -/
def jTruthy : JVal → Bool
  | .jnull => false
  | .jbool b => b
  | .jnum n => n ≠ 0
  | .jstr s => s ≠ ""
  | .jarr xs => !xs.isEmpty
  | .jobj fs => !fs.isEmpty

/-- Python `v == ""` for a decoded JSON value. -/
def jEqEmptyStr : JVal → Bool
  | .jstr s => s = ""
  | _ => false

/-- Python `int(v)`: `none` models the `TypeError`/`ValueError` raise. -/
def pyInt : JVal → Option Int
  | .jnum n => some n
  | .jbool b => some (if b then 1 else 0)
  | .jstr s => pyIntStr s
  | _ => none

/-- The errors `_parse_json_envelope` can raise: `CaptchaError` (line 88),
`ServerError` (line 91), or the `ValueError` escaping from
`int(data.get("totRecords", 0))` (line 94). -/
inductive EnvErr where
  | captcha : String → EnvErr
  | server : JVal → EnvErr
  | intConv : EnvErr

/-- The outer response body of a `showRecords` call after `json.loads`:
either it did not start with a brace (line 79; the bare-text fallthrough of
line 113), or it decoded to an object with the given fields. -/
inductive RawJson where
  | notObject : RawJson
  | object : List (String × JVal) → RawJson

/-- Lines 89-110 of `_parse_json_envelope`, after the captcha check:
the `Error` field check, `int(totRecords)`, and the normalization of the
`con` field.  `dec` is the oracle for `json.loads(inner, strict=False)`
applied to the nested JSON-encoded string. -/
def envelopeRest (dec : String → Option JVal) (fields : List (String × JVal)) :
    Except EnvErr (List JVal × Int) :=
  let err := (jlookup fields "Error").getD (.jstr "")
  if jTruthy err && !(jEqEmptyStr err) then .error (.server err)
  else
    match pyInt ((jlookup fields "totRecords").getD (.jnum 0)) with
    | none => .error .intConv
    | some total =>
      match jlookup fields "con" with
      | some (.jarr (inner :: _)) =>
        match inner with
        | .jstr s =>
          match dec s with
          | some (.jarr records) => .ok (records, total)
          | some _ => .ok ([], total)
          | none => .ok ([], total)
        | .jobj f => .ok ([.jobj f], total)
        | _ => .ok ([], total)
      | _ => .ok ([], total)

/-- `_parse_json_envelope` (hcservices/parser.py lines 66-113) on the decoded
body: if the `con` field is a string whose lowercase contains `"captcha"`,
raise `CaptchaError` with that string; otherwise continue with
`envelopeRest`; a body that is not a JSON object yields `([], 0)`. -/
def parseJsonEnvelope (dec : String → Option JVal) : RawJson → Except EnvErr (List JVal × Int)
  | .notObject => .ok ([], 0)
  | .object fields =>
    match jlookup fields "con" with
    | some (.jstr s) =>
      if containsSub "captcha" (strLower s) then .error (.captcha s)
      else envelopeRest dec fields
    | _ => envelopeRest dec fields

/-! ## HTML document model (the features the BeautifulSoup parsers inspect) -/

/-- A table cell (`td`): the texts of its `strong` descendants in order,
its `get_text()`, and the `href` of its first `a` descendant (if any). -/
structure Cell where
  strongs : List String := []
  text : String := ""
  anchor : Option String := none
deriving DecidableEq, Repr

/-- A table row (`tr`) as a list of its `td` cells. -/
structure Row where
  cells : List Cell := []
deriving DecidableEq, Repr

/-- A `table` element: its `id` and `class` attributes and its `tr` rows in
document order. -/
structure HTable where
  id : Option String := none
  cls : Option String := none
  rows : List Row := []
deriving DecidableEq, Repr

/-- An `a` element outside a table: its `class` attribute and its string
content (used by `_has_next_page`). -/
structure Anchor where
  cls : Option String := none
  text : String := ""
deriving DecidableEq, Repr

/-- A parsed HTML document restricted to the features the parsers query:
the tables in document order, the texts of `div class="pagination"`
elements, the string contents of `span` elements, and the anchors. -/
structure Doc where
  tables : List HTable := []
  paginationDivs : List String := []
  spans : List String := []
  anchors : List Anchor := []
deriving DecidableEq, Repr

/-- `cols[i]` after a length guard: list indexing with a default empty cell
(every use in this file is guarded by the source's own length check). -/
def cellAt (r : Row) (i : Nat) : Cell :=
  r.cells.getD i {}

/-- `soup.find("table", id=tid) or soup.find("table")`: the first table with
the given id, else the first table of the document. -/
def findTableById (doc : Doc) (tid : String) : Option HTable :=
  (doc.tables.find? (fun t => t.id = some tid)).orElse (fun _ => doc.tables.head?)

/-- `soup.find("table", class_=tcls) or soup.find("table")`. -/
def findTableByClass (doc : Doc) (tcls : String) : Option HTable :=
  (doc.tables.find? (fun t => t.cls = some tcls)).orElse (fun _ => doc.tables.head?)

/-! ## Legacy case-status HTML parsing -/

/-- `CaseInfo` (models.py lines 83-98). -/
structure CaseInfoM where
  case_number : String
  case_type : String
  cnr_number : String := ""
  filing_number : String := ""
  registration_number : String := ""
  registration_date : Option PDate := none
  petitioner : String := ""
  respondent : String := ""
  status : String := ""
  court_name : String := ""
  judges : List String := []
  next_hearing_date : Option PDate := none
deriving DecidableEq, Repr

/-- The `\b` word boundary before a word char: satisfied at the start of
the string or after a non-word char (regex word chars with ASCII input:
alphanumerics and underscore). -/
def boundaryOk : Option Char → Bool
  | none => true
  | some p => !(p.isAlphanum || p = '_')

/-- The `\b` word boundary after a word char: satisfied at the end of the
string or before a non-word char. -/
def headBoundary : List Char → Bool
  | [] => true
  | d :: _ => !(d.isAlphanum || d = '_')

/-- One split step of `re.split(r"\bvs?\b", text, maxsplit=1, re.IGNORECASE)`
(`_extract_parties`, hcservices/parser.py line 170): scan for the first
case-insensitive `v`, optionally followed by `s` (the regex is greedy, so
`vs` is preferred where both are bounded), delimited by word boundaries;
return the char lists before and after the match.  `prev` is the character
before the scan position (`none` at the start of the string) and `acc`
accumulates the consumed characters in reverse. -/
def vsSplitAux (prev : Option Char) (acc : List Char) : List Char → Option (List Char × List Char)
  | [] => none
  | c :: rest =>
    if (c = 'v' || c = 'V') && boundaryOk prev then
      match rest with
      | [] => some (acc.reverse, [])
      | s :: rest2 =>
        if (s = 's' || s = 'S') && headBoundary rest2 then
          some (acc.reverse, rest2)
        else if !(s.isAlphanum || s = '_') then
          some (acc.reverse, rest)
        else vsSplitAux (some c) (c :: acc) rest
    else vsSplitAux (some c) (c :: acc) rest

/-- `re.split(r"\bvs?\b", text, maxsplit=1, re.IGNORECASE)` restricted to the
split outcome: `some (before, after)` when a match exists, else `none`. -/
def vsSplit (t : String) : Option (String × String) :=
  match vsSplitAux none [] t.toList with
  | none => none
  | some (a, b) => some (String.mk a, String.mk b)

/-- `_extract_parties` (hcservices/parser.py lines 163-174): two or more
`strong` sub-spans give (first, second); otherwise split the cleaned cell
text on the `\bvs?\b` boundary; no boundary gives (text, ""). -/
def extractParties (cell : Cell) : String × String :=
  match cell.strongs with
  | s0 :: s1 :: _ => (cleanText s0, cleanText s1)
  | _ =>
    let t := cleanText cell.text
    match vsSplit t with
    | some (a, b) => (pyStrip a, pyStrip b)
    | none => (t, "")

/-- The per-row body of `_parse_case_status_html` (lines 191-212): skip rows
with fewer than 4 cells, else extract fields positionally. -/
def caseStatusRow (row : Row) : Option CaseInfoM :=
  if row.cells.length < 4 then none
  else
    let case_number := cleanText (cellAt row 1).text
    let parties := extractParties (cellAt row 2)
    let filing_date := if 4 < row.cells.length then parseDate (cellAt row 4).text else none
    let reg_date := if 5 < row.cells.length then parseDate (cellAt row 5).text else none
    let status := if 6 < row.cells.length then cleanText (cellAt row 6).text else ""
    some
      { case_number := case_number
        case_type := if case_number.toList.contains '/' then (splitChar '/' case_number).headD "" else ""
        filing_number := match filing_date with
          | some d => isoDate d
          | none => ""
        registration_date := reg_date
        petitioner := parties.1
        respondent := parties.2
        status := status }

/-- `_parse_case_status_html` (hcservices/parser.py lines 177-214): first
table, skip the header row, parse each remaining row positionally; no table
gives `[]`. -/
def parseCaseStatusHtml (doc : Doc) : List CaseInfoM :=
  match doc.tables.head? with
  | none => []
  | some t => (t.rows.drop 1).filterMap caseStatusRow

/-! ## Court orders: `parse_orders` -/

/-- `CaseOrder` (models.py lines 101-110); the optional `pdf_bytes` and
`order_text` fields are never set by the parser and are omitted. -/
structure CaseOrderM where
  order_date : PDate
  order_type : String
  judge : String := ""
  pdf_url : String := ""
deriving DecidableEq, Repr

/-- Resolution of a relative `href` by `parse_orders` (lines 244-251):
`base_url + href` when the href starts with `/`, else the href verbatim;
a missing anchor or falsy href gives `""`. -/
def resolveOrderHref (baseUrl : String) : Option String → String
  | none => ""
  | some href =>
    if href = "" then ""
    else if strStartsWith href "/" then baseUrl ++ href
    else href

/-- The per-row body of `parse_orders` (lines 232-260): skip rows with fewer
than 5 cells, drop rows whose date cell does not parse, else build an order. -/
def orderOfRow (baseUrl : String) (row : Row) : Option CaseOrderM :=
  if row.cells.length < 5 then none
  else
    match parseDate (cellAt row 1).text with
    | none => none
    | some d =>
      some
        { order_date := d
          order_type := cleanText (cellAt row 2).text
          judge := cleanText (cellAt row 3).text
          pdf_url := resolveOrderHref baseUrl (cellAt row 4).anchor }

/-- `parse_orders` (hcservices/parser.py lines 222-262):
`soup.find("table", id="orderTable") or soup.find("table")`, skip the header
row, keep only rows with a parseable date; no table gives `[]`. -/
def parseOrders (baseUrl : String) (doc : Doc) : List CaseOrderM :=
  match findTableById doc "orderTable" with
  | none => []
  | some t => (t.rows.drop 1).filterMap (orderOfRow baseUrl)

/-! ## Cause list: `parse_cause_list` -/

/-- `CauseListPDF` (models.py lines 153-165), minus the unused `pdf_bytes`. -/
structure CauseListPDFM where
  serial_number : Int
  bench : String
  cause_list_type : String := ""
  pdf_url : String := ""
deriving DecidableEq, Repr

/-- The per-row body of `parse_cause_list` (lines 293-326): rows with fewer
than 4 cells are skipped; the PDF href is stripped and resolved against
`base_url + "/cases_qry/"` unless absolute; a non-integer serial becomes 0. -/
def causeListRow (baseUrl : String) (row : Row) : Option CauseListPDFM :=
  if row.cells.length < 4 then none
  else
    let serial := cleanText (cellAt row 0).text
    let pdf := match (cellAt row 3).anchor with
      | none => ""
      | some h =>
        if h = "" then ""
        else
          let href := pyStrip h
          if strStartsWith href "http" then href
          else if baseUrl ≠ "" then baseUrl ++ "/cases_qry/" ++ href
          else href
    some
      { serial_number := (pyIntStr serial).getD 0
        bench := cleanText (cellAt row 1).text
        cause_list_type := cleanText (cellAt row 2).text
        pdf_url := pdf }

/-- `parse_cause_list` (hcservices/parser.py lines 270-328):
`soup.find("table", class_="causelistTbl") or soup.find("table")`, skip the
header row; no table gives `[]`. -/
def parseCauseList (baseUrl : String) (doc : Doc) : List CauseListPDFM :=
  match findTableByClass doc "causelistTbl" with
  | none => []
  | some t => (t.rows.drop 1).filterMap (causeListRow baseUrl)

/-! ## Judgment search parser -/

/-- `JudgmentResult` (models.py lines 113-128), minus the unused
`pdf_bytes` and `metadata` fields. -/
structure JudgmentResultM where
  title : String
  court_name : String
  case_number : String := ""
  judgment_date : Option PDate := none
  judges : List String := []
  pdf_url : String := ""
  citation : String := ""
  bench_type : String := ""
  source_url : String := ""
  source_id : String := ""
deriving DecidableEq, Repr

/-- `SearchResult` (models.py lines 168-182) with the dataclass defaults;
counts are Python ints. -/
structure SearchResult where
  items : List JudgmentResultM := []
  total_count : Int := 0
  page : Int := 1
  page_size : Int := 10
  has_next : Bool := false
deriving DecidableEq, Repr

/-- `SearchResult.total_pages` (models.py lines 178-182):
0 when `page_size == 0`, else `(total_count + page_size - 1) // page_size`
with Python floor division. -/
def SearchResult.total_pages (r : SearchResult) : Int :=
  if r.page_size = 0 then 0
  else Int.fdiv (r.total_count + r.page_size - 1) r.page_size

/-- The apostrophe character (U+0027). -/
def apos : Char := Char.ofNat 39

/-- The `ble\s+` part of `re.sub(r"Hon'?ble\s+", "", text, re.IGNORECASE)`
(`_parse_judges`, judgments/parser.py line 39): match `ble`
case-insensitively followed by at least one whitespace char, consume the
whitespace run greedily, and return the remainder. -/
def honTail : List Char → Option (List Char)
  | b :: l :: e :: w :: rest =>
    if (b = 'b' || b = 'B') && (l = 'l' || l = 'L') && (e = 'e' || e = 'E') &&
       w.isWhitespace then
      some (rest.dropWhile Char.isWhitespace)
    else none
  | _ => none

/-- One match of `Hon'?ble\s+` at the head of the list: `hon`
case-insensitively, an optional apostrophe, then `honTail`. -/
def honMatch : List Char → Option (List Char)
  | h :: o :: n :: rest =>
    if (h = 'h' || h = 'H') && (o = 'o' || o = 'O') && (n = 'n' || n = 'N') then
      match rest with
      | q :: rest2 => if q = apos then honTail rest2 else honTail rest
      | [] => none
    else none
  | _ => none

/-- `dropWhile` does not lengthen a list. -/
theorem len_dropWhile_le (p : Char → Bool) : ∀ l : List Char, (l.dropWhile p).length ≤ l.length
  | [] => Nat.le_refl _
  | c :: t => by
    rw [List.dropWhile_cons]
    split
    · exact Nat.le_succ_of_le (len_dropWhile_le p t)
    · exact Nat.le_refl _

/-- Length bound for `honTail`. -/
theorem honTail_length : ∀ l r : List Char, honTail l = some r → r.length < l.length := by
  intro l r h
  unfold honTail at h
  split at h
  next b l' e w rest =>
    split at h
    · injection h with h'
      subst h'
      have := len_dropWhile_le Char.isWhitespace rest
      simp only [List.length_cons] at *
      omega
    · exact absurd h (by simp)
  next => exact absurd h (by simp)

/-- Length bound justifying the recursion of `removeHon`. -/
theorem honMatch_length : ∀ l r : List Char, honMatch l = some r → r.length < l.length := by
  intro l r h
  unfold honMatch at h
  split at h
  next hh o n t =>
    split at h
    · split at h
      next q rest2 =>
        split at h
        · have := honTail_length _ _ h
          simp only [List.length_cons] at *
          omega
        · have := honTail_length _ _ h
          simp only [List.length_cons] at *
          omega
      next => exact absurd h (by simp)
    · exact absurd h (by simp)
  next => exact absurd h (by simp)

/-- `re.sub(r"Hon'?ble\s+", "", text, re.IGNORECASE)`: remove every match,
resuming the scan at the end of each removed match.  The `fuel` argument
makes the recursion structural; `honMatch_length` shows any fuel at least
the list length suffices, so `removeHon` below is total in the intended
sense. -/
def removeHonF : Nat → List Char → List Char
  | 0, l => l
  | fuel + 1, l =>
    match l with
    | [] => []
    | c :: rest =>
      match honMatch (c :: rest) with
      | some rem => removeHonF fuel rem
      | none => c :: removeHonF fuel rest

/-- `re.sub(r"Hon'?ble\s+", "", text, re.IGNORECASE)`. -/
def removeHon (l : List Char) : List Char :=
  removeHonF l.length l

/-- The `and\s+` part of the judge-split delimiter: `and` case-insensitively
followed by at least one whitespace char, consumed greedily. -/
def andTail : List Char → Option (List Char)
  | a :: n :: d :: w :: rest =>
    if (a = 'a' || a = 'A') && (n = 'n' || n = 'N') && (d = 'd' || d = 'D') &&
       w.isWhitespace then
      some (rest.dropWhile Char.isWhitespace)
    else none
  | _ => none

/-- Length bound for `andTail`. -/
theorem andTail_length : ∀ l r : List Char, andTail l = some r → r.length < l.length := by
  intro l r h
  unfold andTail at h
  split at h
  next a n d w rest =>
    split at h
    · injection h with h'
      subst h'
      have := len_dropWhile_le Char.isWhitespace rest
      simp only [List.length_cons] at *
      omega
    · exact absurd h (by simp)
  next => exact absurd h (by simp)

/-- One delimiter match of `re.split(r",\s*|\s+and\s+", text, re.IGNORECASE)`
at the head of the list: a comma followed by a greedy whitespace run, or a
whitespace run (consumed greedily) followed by `and` and at least one more
whitespace char. -/
def judgeDelim (l : List Char) : Option (List Char) :=
  match l with
  | [] => none
  | c :: rest =>
    if c = ',' then some (rest.dropWhile Char.isWhitespace)
    else if c.isWhitespace then andTail (rest.dropWhile Char.isWhitespace)
    else none

/-- Length bound justifying the recursion of `splitJudgesAux`. -/
theorem judgeDelim_length : ∀ l r : List Char, judgeDelim l = some r → r.length < l.length := by
  intro l r h
  unfold judgeDelim at h
  split at h
  next => exact absurd h (by simp)
  next c rest =>
    split at h
    · injection h with h'
      subst h'
      have := len_dropWhile_le Char.isWhitespace rest
      simp only [List.length_cons] at *
      omega
    · split at h
      · have h1 := andTail_length _ _ h
        have h2 := len_dropWhile_le Char.isWhitespace rest
        simp only [List.length_cons] at *
        omega
      · exact absurd h (by simp)

/-- `re.split(r",\s*|\s+and\s+", text, re.IGNORECASE)`: `cur` accumulates the
current part in reverse; each delimiter match ends a part.  The `fuel`
argument makes the recursion structural; `judgeDelim_length` shows any fuel
at least the list length suffices. -/
def splitJudgesF : Nat → List Char → List Char → List (List Char)
  | 0, cur, _ => [cur.reverse]
  | fuel + 1, cur, l =>
    match l with
    | [] => [cur.reverse]
    | c :: rest =>
      match judgeDelim (c :: rest) with
      | some rem => cur.reverse :: splitJudgesF fuel [] rem
      | none => splitJudgesF fuel (c :: cur) rest

/-- `_parse_judges` (judgments/parser.py lines 35-42): clean the text,
remove every `Hon'?ble\s+` occurrence, split on comma or ` and `, strip each
part and drop the empty ones. -/
def parseJudges (s : String) : List String :=
  let chars := removeHon (cleanText s).toList
  ((splitJudgesF chars.length [] chars).map
      (fun p => pyStrip (String.mk p))).filter (· ≠ "")

/-- One scan of Python `full.replace(pat, "")` for a non-empty pattern:
remove every non-overlapping occurrence left to right, resuming after each
removed match.  Structural on `fuel`; fuel at least the list length
suffices because a match consumes at least one char. -/
def removeAllF (pat : List Char) : Nat → List Char → List Char
  | 0, l => l
  | fuel + 1, l =>
    match l with
    | [] => []
    | c :: rest =>
      if pat.isPrefixOf (c :: rest) then
        removeAllF pat fuel ((c :: rest).drop pat.length)
      else c :: removeAllF pat fuel rest

/-- Python `full.replace(title, "")` as used by `_extract_title_and_case`
(only called with a non-empty `title`). -/
def strRemoveAll (pat full : String) : String :=
  String.mk (removeAllF pat.toList full.toList.length full.toList)

/-- `_extract_title_and_case` (judgments/parser.py lines 45-53): the title is
the cleaned text of the first `strong` sub-span (or empty), the case number
is the cleaned full text with every occurrence of the title removed, then
stripped. -/
def extractTitleAndCase (cell : Cell) : String × String :=
  let title := match cell.strongs.head? with
    | some s => cleanText s
    | none => ""
  let full := cleanText cell.text
  let case_number := pyStrip (if title = "" then full else strRemoveAll title full)
  (title, case_number)

/-- `re.compile(r"of \d+").search(text)` as a Boolean: somewhere in the text,
`of`, one space, then a digit (used by the `soup.find("span", string=...)`
fallback of `_parse_total_count`). -/
def hasOfNum : List Char → Bool
  | [] => false
  | c :: rest =>
    (match c :: rest with
     | 'o' :: 'f' :: ' ' :: d :: _ => d.isDigit
     | _ => false) ||
    hasOfNum rest

/-- `re.search(r"of\s+(\d+)", text)` followed by `int(group(1))`: the number
after the leftmost `of` + whitespace run + digit run. -/
def searchOfCount : List Char → Option Nat
  | [] => none
  | c :: rest =>
    (match c :: rest with
     | 'o' :: 'f' :: t =>
       match t with
       | w :: t2 =>
         if w.isWhitespace then
           let digs := (t2.dropWhile Char.isWhitespace).takeWhile Char.isDigit
           if digs.isEmpty then none else some (digitsToNat digs)
         else none
       | [] => none
     | _ => none).orElse
    (fun _ => searchOfCount rest)

/-- `_parse_total_count` (judgments/parser.py lines 56-65):
`soup.find("div", class_="pagination") or soup.find("span", string=re)`,
then `re.search(r"of\s+(\d+)", text)`; 0 when absent. -/
def parseTotalCount (doc : Doc) : Nat :=
  let pagination :=
    (doc.paginationDivs.head?).orElse
      (fun _ => doc.spans.find? (fun s => hasOfNum s.toList))
  match pagination with
  | none => 0
  | some text => (searchOfCount text.toList).getD 0

/-- `_has_next_page` (judgments/parser.py lines 68-73):
`soup.find("a", class_="next") or soup.find("a", string=re("Next", I))`. -/
def hasNextPage (doc : Doc) : Bool :=
  doc.anchors.any (fun a => a.cls = some "next") ||
  doc.anchors.any (fun a => containsSub "next" (strLower a.text))

/-- The per-row body of `parse_judgment_search` (lines 86-125): skip rows
with fewer than 7 cells; title/case from column 2, court from column 3,
judges from column 4, date from column 5, PDF href from column 6; the bench
type is derived from the judge count. -/
def judgmentOfRow (baseUrl : String) (row : Row) : Option JudgmentResultM :=
  if row.cells.length < 7 then none
  else
    let tc := extractTitleAndCase (cellAt row 2)
    let judges := parseJudges (cellAt row 4).text
    let pdf := resolveOrderHref baseUrl (cellAt row 6).anchor
    some
      { title := tc.1
        court_name := cleanText (cellAt row 3).text
        case_number := tc.2
        judgment_date := parseDate (cellAt row 5).text
        judges := judges
        pdf_url := pdf
        bench_type :=
          if 3 ≤ judges.length then "Full Bench"
          else if judges.length = 2 then "Division Bench"
          else if judges.length = 1 then "Single Bench"
          else ""
        source_url := pdf }

/-- `parse_judgment_search` (judgments/parser.py lines 76-136):
`soup.find("table", id="resultTable") or soup.find("table")`; no table gives
the default `SearchResult()`; otherwise parse the rows after the header,
take the pagination total if non-zero (else the row count), and set
`page_size` to the row count. -/
def parseJudgmentSearch (doc : Doc) (baseUrl : String := "") (page : Int := 1) : SearchResult :=
  match findTableById doc "resultTable" with
  | none => {}
  | some t =>
    let judgments := (t.rows.drop 1).filterMap (judgmentOfRow baseUrl)
    let total := parseTotalCount doc
    { items := judgments
      total_count := if total ≠ 0 then (total : Int) else (judgments.length : Int)
      page := page
      page_size := (judgments.length : Int)
      has_next := hasNextPage doc }

/-! ## Delimiter-separated listings (`list_benches` / `list_case_types`) -/

/-- The byte-order-mark character U+FEFF. -/
def bom : Char := Char.ofNat 0xFEFF

/-- Python `entry.split("~", 1)`: split at the first `~` only. -/
def splitFirstTilde (s : String) : Option (String × String) :=
  match splitChar '~' s with
  | [] => none
  | [_] => none
  | x :: rest => some (x, String.intercalate "~" rest)

/-- Python dict assignment `m[k] = v`: overwrite in place or append. -/
def dictInsert : List (String × String) → String → String → List (String × String)
  | [], k, v => [(k, v)]
  | (k', v') :: rest, k, v =>
    if k' = k then (k, v) :: rest else (k', v') :: dictInsert rest k v

/-- The response-parsing loop of `HCServicesClient.list_benches`
(hcservices/client.py lines 299-309): split the body on `#`; for each entry
containing `~`, split once, strip whitespace then the BOM from code and name
separately, and keep the pair unless the code is empty or the `"0"`
sentinel, the name is empty, or the name contains `select`
case-insensitively. -/
def listBenchesParse (text : String) : List (String × String) :=
  (splitChar '#' text).foldl
    (fun m entry =>
      let e := pyStrip entry
      match splitFirstTilde e with
      | none => m
      | some (c, n) =>
        let code := stripChar bom (pyStrip c)
        let name := stripChar bom (pyStrip n)
        if code ≠ "" ∧ code ≠ "0" ∧ name ≠ "" ∧ ¬(containsSub "select" (strLower name) = true)
        then dictInsert m code name
        else m)
    []

/-- The response-parsing loop of `HCServicesClient.list_case_types`
(hcservices/client.py lines 324-333): like `listBenchesParse` but the BOM is
stripped from the whole entry before splitting, and only whitespace is
stripped from code and name afterwards. -/
def listCaseTypesParse (text : String) : List (String × String) :=
  (splitChar '#' text).foldl
    (fun m entry =>
      let e := stripChar bom (pyStrip entry)
      match splitFirstTilde e with
      | none => m
      | some (c, n) =>
        let code := pyStrip c
        let name := pyStrip n
        if code ≠ "" ∧ code ≠ "0" ∧ name ≠ "" ∧ ¬(containsSub "select" (strLower name) = true)
        then dictInsert m code name
        else m)
    []

/-! ## Rate-limited transport: `RateLimitedClient._request` -/

/-- The transient failures caught by `_request` (http.py line 71):
`httpx.HTTPStatusError` (raised by `raise_for_status` on a 4xx/5xx status),
`httpx.ConnectError`, `httpx.ReadTimeout`. -/
inductive TransientErr where
  | httpStatus : Nat → TransientErr
  | connectErr : TransientErr
  | readTimeout : TransientErr
deriving DecidableEq, Repr

/-- The outcome of one underlying `client.request` +`raise_for_status`
attempt, supplied by the network oracle. -/
inductive AttemptRes where
  | ok : String → AttemptRes
  | fail : TransientErr → AttemptRes
deriving DecidableEq, Repr

/-- What `get`/`post` can raise: the bare transient error re-raised on the
final attempt (http.py line 74), or the `RuntimeError` built after the loop
(line 88, reachable only when `max_retries == 0`) carrying `last_error`. -/
inductive ReqError where
  | raised : TransientErr → ReqError
  | runtimeWrap : Option TransientErr → ReqError
deriving DecidableEq, Repr

/-- Externally visible events of `_request`: the blanket rate-limit sleep
(line 63), each attempt (line 68), and each backoff sleep (line 85). -/
inductive TAct where
  | rateDelay : TAct
  | attempt : Nat → TAct
  | backoff : Nat → TAct
deriving DecidableEq, Repr

/-- The retry loop of `_request` (http.py lines 66-85): `i` is the 0-based
attempt index, `fuel` the remaining iterations of `range(max_retries)`.
On failure with attempts remaining, sleep `(i + 1) * 2` seconds and retry;
on the last attempt re-raise the error; when the loop body never runs,
raise the wrapping `RuntimeError` (with `last_error = None`). -/
def reqLoop (outcomes : Nat → AttemptRes) : Nat → Nat → Except ReqError String × List TAct
  | _, 0 => (.error (.runtimeWrap none), [])
  | i, fuel + 1 =>
    match outcomes i with
    | .ok body => (.ok body, [.attempt i])
    | .fail e =>
      if fuel = 0 then (.error (.raised e), [.attempt i])
      else
        let rest := reqLoop outcomes (i + 1) fuel
        (rest.1, .attempt i :: .backoff ((i + 1) * 2) :: rest.2)

/-- `RateLimitedClient._request` (http.py lines 60-88): the blanket
rate-limit sleep, then the retry loop over `max_retries` attempts. -/
def rateLimitedRequest (outcomes : Nat → AttemptRes) (maxRetries : Nat := 3) :
    Except ReqError String × List TAct :=
  let r := reqLoop outcomes 0 maxRetries
  (r.1, .rateDelay :: r.2)

/-! ## HC Services protocol: `_post_with_captcha_retry` -/

/-- Externally visible protocol steps of `_post_with_captcha_retry`
(hcservices/client.py lines 111-121): per attempt, `_init_session` (fresh
session), `_solve_captcha` (challenge fetch + solver call), then the form
POST. -/
inductive PAct where
  | initSession : PAct
  | fetchChallenge : PAct
  | submit : Nat → PAct
deriving DecidableEq, Repr

/-- The rejection quick-check of `_post_with_captcha_retry` (lines 123-124):
strip the response text, strip a leading BOM, and look for the substrings
`"Invalid Captcha"` or `"con":"Invalid Captcha"` (quotes included). -/
def hcRejected (respText : String) : Bool :=
  let text := lstripChar bom (pyStrip respText)
  containsSub "\"Invalid Captcha\"" text || containsSub "\"con\":\"Invalid Captcha\"" text

/-- The loop of `_post_with_captcha_retry` (lines 111-128): `attempt` is the
0-based attempt index; `responses attempt` is the body of that attempt's
POST response (each attempt re-runs session init and challenge fetch first).
`Except.error ()` models the `CaptchaError` raised after the loop. -/
def hcLoop (responses : Nat → String) : Nat → Nat → Except Unit String × List PAct
  | _, 0 => (.error (), [])
  | attempt, fuel + 1 =>
    let acts : List PAct := [.initSession, .fetchChallenge, .submit attempt]
    if hcRejected (responses attempt) then
      let rest := hcLoop responses (attempt + 1) fuel
      (rest.1, acts ++ rest.2)
    else (.ok (responses attempt), acts)

/-- `HCServicesClient._post_with_captcha_retry` (hcservices/client.py
lines 93-128) with its default `max_retries = 3`. -/
def postWithCaptchaRetry (responses : Nat → String) (maxRetries : Nat := 3) :
    Except Unit String × List PAct :=
  hcLoop responses 0 maxRetries

/-- The full action trace of an all-rejected run starting at attempt `a`. -/
def hcTraceFrom (a : Nat) : Nat → List PAct
  | 0 => []
  | fuel + 1 => .initSession :: .fetchChallenge :: .submit a :: hcTraceFrom (a + 1) fuel

/-! ## Judgment-search protocol: `JudgmentSearchClient.search` -/

/-- Externally visible protocol steps of `JudgmentSearchClient.search`
(judgments/client.py lines 124-153): one `_init_session`, then per captcha
attempt a challenge fetch + solver call and (for a non-empty solution) an
AJAX validation round-trip; on success the results page is fetched. -/
inductive JAct where
  | initSession : JAct
  | fetchChallenge : JAct
  | validate : Nat → JAct
  | loadResults : JAct
deriving DecidableEq, Repr

/-- The captcha loop of `search` (judgments/client.py lines 128-139):
`solves i` is the solver's text for attempt `i`, `valids i` the portal's
verdict for that attempt's `_validate_captcha` call.  An empty solver answer
skips validation; the loop exits early on a `True` verdict; a completed loop
(`for ... else`) yields `none`. -/
def judgmentsCaptchaLoop (solves : Nat → String) (valids : Nat → Bool) :
    Nat → Nat → Option Nat × List JAct
  | _, 0 => (none, [])
  | attempt, fuel + 1 =>
    if solves attempt = "" then
      let rest := judgmentsCaptchaLoop solves valids (attempt + 1) fuel
      (rest.1, .fetchChallenge :: rest.2)
    else if valids attempt then (some attempt, [.fetchChallenge, .validate attempt])
    else
      let rest := judgmentsCaptchaLoop solves valids (attempt + 1) fuel
      (rest.1, .fetchChallenge :: .validate attempt :: rest.2)

/-- `JudgmentSearchClient.search` (judgments/client.py lines 102-153):
session init once, then the captcha loop; on exhaustion the method *returns*
the default empty `SearchResult()` (line 139); on success it fetches the
results page (modelled by the `resultsDoc` oracle) and parses it.  The
return type records that this protocol never raises a challenge failure. -/
def judgmentsSearch (solves : Nat → String) (valids : Nat → Bool) (resultsDoc : Doc)
    (baseUrl : String := "") (maxCaptchaAttempts : Nat := 3) : SearchResult × List JAct :=
  let r := judgmentsCaptchaLoop solves valids 0 maxCaptchaAttempts
  match r.1 with
  | none => ({}, .initSession :: r.2)
  | some _ => (parseJudgmentSearch resultsDoc baseUrl, .initSession :: r.2 ++ [.loadResults])

/-- The action trace of an all-rejected (non-empty solutions) captcha loop
starting at attempt `a`. -/
def jTraceFrom (a : Nat) : Nat → List JAct
  | 0 => []
  | fuel + 1 => .fetchChallenge :: .validate a :: jTraceFrom (a + 1) fuel

/-! ## Claim theorems -/

/-- C4: For every SearchResult with non-negative total_count: total_pages
equals ceil(total_count / page_size) when page_size > 0, and equals 0 when
page_size == 0. -/
theorem C4_total_pages (r : SearchResult) (ht : 0 ≤ r.total_count) :
    (0 < r.page_size →
      r.total_pages = ⌈(r.total_count : ℚ) / (r.page_size : ℚ)⌉) ∧
    (r.page_size = 0 → r.total_pages = 0) := by
  constructor
  · intro hp
    unfold SearchResult.total_pages
    rw [if_neg (by omega)]
    rw [Int.fdiv_eq_ediv _ (le_of_lt hp)]
    set t := r.total_count with hT
    set p := r.page_size with hP
    set q := (t + p - 1) / p with hq
    have hmod := Int.ediv_add_emod (t + p - 1) p
    have h0 : 0 ≤ (t + p - 1) % p := Int.emod_nonneg _ (by omega)
    have h1 : (t + p - 1) % p < p := Int.emod_lt_of_pos _ hp
    have hpQ : (0 : ℚ) < (p : ℚ) := by exact_mod_cast hp
    symm
    rw [Int.ceil_eq_iff]
    constructor
    · rw [lt_div_iff₀ hpQ]
      have hZ : (q - 1) * p < t := by nlinarith [hmod, h0]
      calc ((q : ℚ) - 1) * (p : ℚ) = (((q - 1) * p : ℤ) : ℚ) := by push_cast; ring
        _ < (t : ℚ) := by exact_mod_cast hZ
    · rw [div_le_iff₀ hpQ]
      have hZ : t ≤ q * p := by nlinarith [hmod, h1]
      calc (t : ℚ) ≤ ((q * p : ℤ) : ℚ) := by exact_mod_cast hZ
        _ = (q : ℚ) * (p : ℚ) := by push_cast; ring
  · intro hp
    unfold SearchResult.total_pages
    rw [if_pos hp]

/-- C4 witness: at total_count = 25, page_size = 10 the hypotheses hold and
total_pages evaluates to ⌈25/10⌉ = 3. -/
theorem C4_total_pages_witness :
    ({ total_count := 25, page_size := 10 } : SearchResult).total_pages = 3 := by
  have h := C4_total_pages { total_count := 25, page_size := 10 } (by norm_num)
  have h2 := h.1 (by norm_num)
  rw [h2]
  norm_num
  rw [Int.ceil_eq_iff]
  norm_num

/-- The captcha-rejection test of line 87:
`isinstance(data.get("con"), str) and "captcha" in data["con"].lower()`. -/
def isCaptchaRejection : Option JVal → Bool
  | some (.jstr s) => containsSub "captcha" (strLower s)
  | _ => false

/-- A non-empty string `Error` field makes `envelopeRest` raise `ServerError`
carrying it. -/
theorem envelopeRest_server (dec : String → Option JVal) (fields : List (String × JVal))
    (e : String) (herr : jlookup fields "Error" = some (.jstr e)) (hne : e ≠ "") :
    envelopeRest dec fields = .error (.server (.jstr e)) := by
  unfold envelopeRest
  rw [herr]
  simp only [Option.getD_some]
  rw [if_pos (by simp [jTruthy, jEqEmptyStr, hne])]

/-- C2: Parsing the envelope of the exact body con = "Invalid Captcha"
raises CaptchaError; parsing con = [], totRecords = "0", Error = "" returns
an empty record sequence without raising; and for every envelope whose con
field is not a captcha-rejection string, a non-empty string Error field
raises a ServerError distinct from the challenge rejection. -/
theorem C2_envelope_errors :
    (∀ dec, parseJsonEnvelope dec (.object [("con", .jstr "Invalid Captcha")]) =
      .error (.captcha "Invalid Captcha")) ∧
    (∀ dec, parseJsonEnvelope dec
      (.object [("con", .jarr []), ("totRecords", .jstr "0"), ("Error", .jstr "")]) =
      .ok ([], 0)) ∧
    (∀ dec fields e,
      isCaptchaRejection (jlookup fields "con") = false →
      jlookup fields "Error" = some (.jstr e) → e ≠ "" →
      parseJsonEnvelope dec (.object fields) = .error (.server (.jstr e))) := by
  refine ⟨fun dec => rfl, fun dec => rfl, ?_⟩
  intro dec fields e hcon herr hne
  have hrest := envelopeRest_server dec fields e herr hne
  have hstep : parseJsonEnvelope dec (.object fields) =
      (match jlookup fields "con" with
       | some (.jstr s) =>
         if containsSub "captcha" (strLower s) then Except.error (EnvErr.captcha s)
         else envelopeRest dec fields
       | _ => envelopeRest dec fields) := rfl
  rw [hstep]
  cases hc : jlookup fields "con" with
  | none => exact hrest
  | some v =>
    cases v with
    | jstr s =>
      have hcon' : containsSub "captcha" (strLower s) = false := by
        rw [hc] at hcon
        simpa [isCaptchaRejection] using hcon
      simp only [hcon', Bool.false_eq_true, if_false]
      exact hrest
    | jnull => exact hrest
    | jbool b => exact hrest
    | jnum n => exact hrest
    | jarr xs => exact hrest
    | jobj fs => exact hrest

/-- C2 witness: a concrete envelope with con = "ok" (not a rejection) and a
non-empty Error field raises ServerError with that field. -/
theorem C2_envelope_errors_witness :
    parseJsonEnvelope (fun _ => none)
      (.object [("con", .jstr "ok"), ("Error", .jstr "ERROR_VAL")]) =
      .error (.server (.jstr "ERROR_VAL")) :=
  C2_envelope_errors.2.2 (fun _ => none) [("con", .jstr "ok"), ("Error", .jstr "ERROR_VAL")]
    "ERROR_VAL" rfl rfl (by simp)

/-- C5: For every input document in which no matching structure (table) is
found, each response parser — legacy case-status HTML, orders, cause-list,
and judgment-search — returns an empty sequence or empty result rather than
raising an error. -/
theorem C5_empty_on_no_table (doc : Doc) (h : doc.tables = [])
    (baseUrl : String) (page : Int) :
    parseCaseStatusHtml doc = [] ∧
    parseOrders baseUrl doc = [] ∧
    parseCauseList baseUrl doc = [] ∧
    parseJudgmentSearch doc baseUrl page = {} := by
  refine ⟨?_, ?_, ?_, ?_⟩ <;>
    simp [parseCaseStatusHtml, parseOrders, parseCauseList, parseJudgmentSearch,
      findTableById, findTableByClass, h]

/-- C5 witness: the empty document has no tables, and all four parsers
return their empty results on it. -/
theorem C5_empty_on_no_table_witness :
    parseCaseStatusHtml {} = [] ∧
    parseOrders "" {} = [] ∧
    parseCauseList "" {} = [] ∧
    parseJudgmentSearch {} "" 1 = {} :=
  C5_empty_on_no_table {} rfl "" 1

/-- Members of `dictInsert m k v` are `(k, v)` or members of `m`. -/
theorem mem_dictInsert {m : List (String × String)} {k v : String} {kv : String × String}
    (h : kv ∈ dictInsert m k v) : kv = (k, v) ∨ kv ∈ m := by
  induction m with
  | nil =>
    simp [dictInsert] at h
    exact Or.inl h
  | cons hd tl ih =>
    unfold dictInsert at h
    split at h
    · rcases List.mem_cons.mp h with h1 | h1
      · exact Or.inl h1
      · exact Or.inr (List.mem_cons_of_mem _ h1)
    · rcases List.mem_cons.mp h with h1 | h1
      · exact Or.inr (h1 ▸ List.mem_cons_self _ _)
      · rcases ih h1 with h2 | h2
        · exact Or.inl h2
        · exact Or.inr (List.mem_cons_of_mem _ h2)

/-- A fold whose step only ever adds pairs satisfying `P` preserves `P` for
all members of the accumulated dict. -/
theorem foldl_dict_pred {α : Type} (P : String × String → Prop)
    (step : List (String × String) → α → List (String × String))
    (hstep : ∀ m a kv, kv ∈ step m a → kv ∈ m ∨ P kv) :
    ∀ (l : List α) (m : List (String × String)), (∀ kv ∈ m, P kv) →
      ∀ kv ∈ l.foldl step m, P kv := by
  intro l
  induction l with
  | nil => intro m hm kv hkv; exact hm kv hkv
  | cons a t ih =>
    intro m hm kv hkv
    refine ih (step m a) ?_ kv hkv
    intro kv' hkv'
    rcases hstep m a kv' hkv' with h | h
    · exact hm kv' h
    · exact h

/-- C6: For every delimiter-separated listing response, the bench and
case-type enumeration parsers return a mapping that excludes every entry
whose key is the zero sentinel "0" and every entry whose value
case-insensitively contains "select". -/
theorem C6_listing_filter (text : String) :
    (∀ kv ∈ listBenchesParse text,
      kv.1 ≠ "0" ∧ containsSub "select" (strLower kv.2) = false) ∧
    (∀ kv ∈ listCaseTypesParse text,
      kv.1 ≠ "0" ∧ containsSub "select" (strLower kv.2) = false) := by
  constructor
  · refine foldl_dict_pred _ _ ?_ (splitChar '#' text) [] (by simp)
    intro m a kv hkv
    dsimp only at hkv
    split at hkv
    · exact Or.inl hkv
    · split at hkv
      · rename_i hcond
        rcases mem_dictInsert hkv with h | h
        · refine Or.inr ?_
          rw [h]
          exact ⟨hcond.2.1, by simpa using hcond.2.2.2⟩
        · exact Or.inl h
      · exact Or.inl hkv
  · refine foldl_dict_pred _ _ ?_ (splitChar '#' text) [] (by simp)
    intro m a kv hkv
    dsimp only at hkv
    split at hkv
    · exact Or.inl hkv
    · split at hkv
      · rename_i hcond
        rcases mem_dictInsert hkv with h | h
        · refine Or.inr ?_
          rw [h]
          exact ⟨hcond.2.1, by simpa using hcond.2.2.2⟩
        · exact Or.inl h
      · exact Or.inl hkv

/-- C6 witness: on a concrete listing with a zero-sentinel `Select` entry,
the kept pair ("1", "Delhi") satisfies the exclusion predicate. -/
theorem C6_listing_filter_witness :
    ("1", "Delhi").1 ≠ "0" ∧
    containsSub "select" (strLower ("1", "Delhi").2) = false :=
  (C6_listing_filter "0~Select Bench#1~Delhi").1 ("1", "Delhi") (by decide)

/-- C7: parse_orders produces a CaseOrder only for rows (after the header)
of the located table whose date cell parses in the fixed DD-MM-YYYY format;
every returned CaseOrder carries that parsed order date. -/
theorem C7_orders_dated (baseUrl : String) (doc : Doc) (o : CaseOrderM)
    (ho : o ∈ parseOrders baseUrl doc) :
    ∃ t row, findTableById doc "orderTable" = some t ∧ row ∈ t.rows.drop 1 ∧
      5 ≤ row.cells.length ∧ parseDate (cellAt row 1).text = some o.order_date := by
  unfold parseOrders at ho
  cases hft : findTableById doc "orderTable" with
  | none => rw [hft] at ho; simp at ho
  | some t =>
    rw [hft] at ho
    rcases List.mem_filterMap.mp ho with ⟨row, hrow, hor⟩
    refine ⟨t, row, rfl, hrow, ?_⟩
    unfold orderOfRow at hor
    split at hor
    · exact absurd hor (by simp)
    · rename_i hlen
      cases hpd : parseDate (cellAt row 1).text with
      | none => rw [hpd] at hor; exact absurd hor (by simp)
      | some d =>
        rw [hpd] at hor
        refine ⟨by omega, ?_⟩
        injection hor with h
        rw [← h]

/-- C7 witness: a concrete orders table with one valid dated row and one row
with an unparseable date yields exactly the dated order, and the theorem
applies to it. -/
theorem C7_orders_dated_witness :
    ∃ t row,
      findTableById
        { tables := [{ id := some "orderTable",
                       rows := [{ cells := [{}, {}, {}, {}, {}] },
                                { cells := [{ text := "1" },
                                            { text := "15-01-2024" },
                                            { text := "Order" },
                                            { text := "Judge X" },
                                            { anchor := some "/pdf/a.pdf" }] },
                                { cells := [{ text := "2" },
                                            { text := "bad-date" },
                                            { text := "Order" },
                                            { text := "Judge Y" },
                                            { anchor := some "/pdf/b.pdf" }] }] }] }
        "orderTable" = some t ∧
      row ∈ t.rows.drop 1 ∧ 5 ≤ row.cells.length ∧
      parseDate (cellAt row 1).text =
        some ({ order_date := ⟨15, 1, 2024⟩, order_type := "Order", judge := "Judge X",
                pdf_url := "base/pdf/a.pdf" } : CaseOrderM).order_date :=
  C7_orders_dated "base"
    { tables := [{ id := some "orderTable",
                   rows := [{ cells := [{}, {}, {}, {}, {}] },
                            { cells := [{ text := "1" },
                                        { text := "15-01-2024" },
                                        { text := "Order" },
                                        { text := "Judge X" },
                                        { anchor := some "/pdf/a.pdf" }] },
                            { cells := [{ text := "2" },
                                        { text := "bad-date" },
                                        { text := "Order" },
                                        { text := "Judge Y" },
                                        { anchor := some "/pdf/b.pdf" }] }] }] }
    { order_date := ⟨15, 1, 2024⟩, order_type := "Order", judge := "Judge X",
      pdf_url := "base/pdf/a.pdf" }
    (by decide)

/-- A matched token of the regex `\bvs?\b` under `re.IGNORECASE`: a single
`v` or a `vs`, in either case. -/
def isVsToken (m : List Char) : Prop :=
  (∃ v, m = [v] ∧ (v = 'v' ∨ v = 'V')) ∨
  (∃ v s, m = [v, s] ∧ (v = 'v' ∨ v = 'V') ∧ (s = 's' ∨ s = 'S'))

/-- Soundness of the `\bvs?\b` scanner: a successful split decomposes the
input into the part before the match, a `v`/`vs` token, and the part after
it. -/
theorem vsSplitAux_sound : ∀ (l : List Char) (prev : Option Char) (acc A B : List Char),
    vsSplitAux prev acc l = some (A, B) →
    ∃ pre m, A = acc.reverse ++ pre ∧ l = pre ++ m ++ B ∧ isVsToken m := by
  intro l
  induction l with
  | nil => intro prev acc A B h; simp [vsSplitAux] at h
  | cons c rest ih =>
    intro prev acc A B h
    unfold vsSplitAux at h
    split at h
    · rename_i hcond
      have hc : c = 'v' ∨ c = 'V' := by
        simp only [Bool.and_eq_true, Bool.or_eq_true, decide_eq_true_eq] at hcond
        exact hcond.1
      split at h
      next =>
        injection h with h'
        injection h' with hA hB
        refine ⟨[], [c], by simp [← hA], by simp [← hB], Or.inl ⟨c, rfl, hc⟩⟩
      next s rest2 =>
        split at h
        · rename_i hcond2
          have hs : s = 's' ∨ s = 'S' := by
            simp only [Bool.and_eq_true, Bool.or_eq_true, decide_eq_true_eq] at hcond2
            exact hcond2.1
          injection h with h'
          injection h' with hA hB
          exact ⟨[], [c, s], by simp [← hA], by simp [← hB], Or.inr ⟨c, s, rfl, hc, hs⟩⟩
        · split at h
          · injection h with h'
            injection h' with hA hB
            exact ⟨[], [c], by simp [← hA], by simp [← hB], Or.inl ⟨c, rfl, hc⟩⟩
          · rcases ih (some c) (c :: acc) A B h with ⟨pre, m, hA, hrest, htok⟩
            refine ⟨c :: pre, m, ?_, by simp [hrest], htok⟩
            rw [hA]
            simp
    · rcases ih (some c) (c :: acc) A B h with ⟨pre, m, hA, hrest, htok⟩
      refine ⟨c :: pre, m, ?_, by simp [hrest], htok⟩
      rw [hA]
      simp

/-- C8 counterexample: the party cell "A v B" (no emphasized sub-spans)
contains no `vs`/`vs.` token at all — by the claim it should come back whole
as the petitioner with an empty respondent — yet `_extract_parties` splits
it on the bare `v` into ("A", "B"). -/
theorem C8_counterexample :
    extractParties { strongs := [], text := "A v B", anchor := none } = ("A", "B") ∧
    containsSub "vs" (strLower (cleanText "A v B")) = false ∧
    extractParties { strongs := [], text := "A v B", anchor := none } ≠ ("A v B", "") := by
  refine ⟨by decide, by decide, by decide⟩

/-- C8 (amended): with at least two emphasized sub-spans the parties are the
first two sub-span texts; otherwise the cleaned cell text is split on the
first case-insensitive word-bounded `v` or `vs` (the regex `\bvs?\b`; a
trailing dot is not consumed), both halves stripped; with no such token the
whole text is the petitioner and the respondent is empty. -/
theorem C8_extract_parties_amended :
    (∀ (cell : Cell) s0 s1 rest, cell.strongs = s0 :: s1 :: rest →
      extractParties cell = (cleanText s0, cleanText s1)) ∧
    (∀ (cell : Cell) A B, cell.strongs.length < 2 →
      vsSplit (cleanText cell.text) = some (A, B) →
      extractParties cell = (pyStrip A, pyStrip B) ∧
      ∃ m, (cleanText cell.text).toList = A.toList ++ m ++ B.toList ∧ isVsToken m) ∧
    (∀ cell : Cell, cell.strongs.length < 2 →
      vsSplit (cleanText cell.text) = none →
      extractParties cell = (cleanText cell.text, "")) := by
  refine ⟨?_, ?_, ?_⟩
  · intro cell s0 s1 rest hstrongs
    unfold extractParties
    rw [hstrongs]
  · intro cell A B hlen hsplit
    have hfall : extractParties cell =
        (match vsSplit (cleanText cell.text) with
         | some (a, b) => (pyStrip a, pyStrip b)
         | none => (cleanText cell.text, "")) := by
      unfold extractParties
      match hs : cell.strongs with
      | [] => rfl
      | [s0] => rfl
      | s0 :: s1 :: r =>
        rw [hs] at hlen
        simp only [List.length_cons] at hlen
        omega
    constructor
    · rw [hfall, hsplit]
    · unfold vsSplit at hsplit
      cases haux : vsSplitAux none [] (cleanText cell.text).toList with
      | none => rw [haux] at hsplit; exact absurd hsplit (by simp)
      | some p =>
        rw [haux] at hsplit
        rcases vsSplitAux_sound _ none [] p.1 p.2 (by rw [haux]) with ⟨pre, m, hA, hrest, htok⟩
        have hAB : A = String.mk p.1 ∧ B = String.mk p.2 := by
          cases p with
          | mk p1 p2 =>
            injection hsplit with h'
            injection h' with h1 h2
            exact ⟨h1.symm, h2.symm⟩
        refine ⟨m, ?_, htok⟩
        rw [hAB.1, hAB.2]
        simpa [hA] using hrest
  · intro cell hlen hsplit
    have hfall : extractParties cell =
        (match vsSplit (cleanText cell.text) with
         | some (a, b) => (pyStrip a, pyStrip b)
         | none => (cleanText cell.text, "")) := by
      unfold extractParties
      match hs : cell.strongs with
      | [] => rfl
      | [s0] => rfl
      | s0 :: s1 :: r =>
        rw [hs] at hlen
        simp only [List.length_cons] at hlen
        omega
    rw [hfall, hsplit]

/-- C8 witness: on the cell "State Of Delhi vs Ram Kumar" with no emphasized
sub-spans the amended split clause applies, producing the two trimmed
parties and a `vs` token decomposition. -/
theorem C8_extract_parties_amended_witness :
    extractParties { strongs := [], text := "State Of Delhi vs Ram Kumar", anchor := none } =
      (pyStrip "State Of Delhi ", pyStrip " Ram Kumar") ∧
    ∃ m, (cleanText "State Of Delhi vs Ram Kumar").toList =
      "State Of Delhi ".toList ++ m ++ " Ram Kumar".toList ∧ isVsToken m :=
  C8_extract_parties_amended.2.1
    { strongs := [], text := "State Of Delhi vs Ram Kumar", anchor := none }
    "State Of Delhi " " Ram Kumar" (by decide) (by decide)

/-- The trace of an all-failing run of `reqLoop` starting at attempt `a`:
one attempt per remaining iteration, with an `(i + 1) * 2` second backoff
between consecutive attempts and none after the last. -/
def failTrace (a : Nat) : Nat → List TAct
  | 0 => []
  | 1 => [.attempt a]
  | fuel + 2 => .attempt a :: .backoff ((a + 1) * 2) :: failTrace (a + 1) (fuel + 1)

/-- Whether a transport trace entry is a request attempt. -/
def isAttempt : TAct → Bool
  | .attempt _ => true
  | _ => false

/-- The number of request attempts recorded in a transport trace. -/
def attemptCount (tr : List TAct) : Nat :=
  (tr.filter isAttempt).length

/-- One unfolding of `reqLoop` at positive fuel. -/
theorem reqLoop_succ (outcomes : Nat → AttemptRes) (a f : Nat) :
    reqLoop outcomes a (f + 1) =
      (match outcomes a with
       | AttemptRes.ok body => (Except.ok body, [TAct.attempt a])
       | AttemptRes.fail e =>
         if f = 0 then (Except.error (ReqError.raised e), [TAct.attempt a])
         else
           ((reqLoop outcomes (a + 1) f).1,
            TAct.attempt a :: TAct.backoff ((a + 1) * 2) :: (reqLoop outcomes (a + 1) f).2)) :=
  rfl

/-- An all-failing trace holds exactly one attempt per iteration. -/
theorem attemptCount_failTrace : ∀ fuel a, attemptCount (failTrace a fuel) = fuel := by
  intro fuel
  induction fuel with
  | zero => intro a; rfl
  | succ f ih =>
    intro a
    cases f with
    | zero => rfl
    | succ f' =>
      show attemptCount (.attempt a :: .backoff ((a + 1) * 2) :: failTrace (a + 1) (f' + 1)) = _
      have := ih (a + 1)
      simp [attemptCount, List.filter_cons, isAttempt] at *
      omega

/-- When every attempt in range fails, `reqLoop` re-raises the last error
and its trace is the all-failing trace. -/
theorem reqLoop_all_fail (outcomes : Nat → AttemptRes) :
    ∀ fuel a, 1 ≤ fuel →
    (∀ j, a ≤ j → j < a + fuel → ∃ e, outcomes j = .fail e) →
    ∃ e, outcomes (a + fuel - 1) = .fail e ∧
      reqLoop outcomes a fuel = (.error (.raised e), failTrace a fuel) := by
  intro fuel
  induction fuel with
  | zero => intro a h; omega
  | succ f ih =>
    intro a _ hfail
    rcases hfail a (Nat.le_refl a) (by omega) with ⟨e, he⟩
    cases f with
    | zero =>
      refine ⟨e, by simpa using he, ?_⟩
      rw [reqLoop_succ, he]
      rfl
    | succ f' =>
      rcases ih (a + 1) (by omega) (fun j hj1 hj2 => hfail j (by omega) (by omega))
        with ⟨e', he', hloop⟩
      refine ⟨e', ?_, ?_⟩
      · have heq : a + 1 + (f' + 1) - 1 = a + (f' + 1 + 1) - 1 := by omega
        rwa [heq] at he'
      · rw [reqLoop_succ, he]
        dsimp only
        rw [if_neg (by omega : ¬ f' + 1 = 0), hloop]
        rfl

/-- C3 counterexample: with every attempt failing with HTTP 500 and
max_retries = 3, the transport re-raises the bare `HTTPStatusError` itself
(http.py line 74); it does not produce the wrapping `RuntimeError` of line
88, which is unreachable for a positive retry count. -/
theorem C3_counterexample :
    (rateLimitedRequest (fun _ => .fail (.httpStatus 500)) 3).1 =
      .error (.raised (.httpStatus 500)) ∧
    ¬((rateLimitedRequest (fun _ => .fail (.httpStatus 500)) 3).1 =
      .error (.runtimeWrap (some (.httpStatus 500)))) ∧
    attemptCount (rateLimitedRequest (fun _ => .fail (.httpStatus 500)) 3).2 = 3 := by
  refine ⟨rfl, ?_, rfl⟩
  intro h
  have h1 : ReqError.raised (.httpStatus 500) = ReqError.runtimeWrap (some (.httpStatus 500)) := by
    have h2 : (Except.error (ReqError.raised (.httpStatus 500)) : Except ReqError String) =
        Except.error (ReqError.runtimeWrap (some (.httpStatus 500))) := h
    injection h2
  exact absurd h1 (by simp)

/-- C3 (amended): for every request whose attempts all fail with a transient
failure, get/post fails after exactly max_retries attempts by re-raising the
last underlying error itself (not a wrapper); the wrapping RuntimeError path
exists but is reachable only when max_retries = 0. -/
theorem C3_transport_exhaustion (outcomes : Nat → AttemptRes) (maxRetries : Nat)
    (hpos : 1 ≤ maxRetries)
    (hfail : ∀ j, j < maxRetries → ∃ e, outcomes j = .fail e) :
    ∃ e, outcomes (maxRetries - 1) = .fail e ∧
      rateLimitedRequest outcomes maxRetries =
        (.error (.raised e), .rateDelay :: failTrace 0 maxRetries) ∧
      attemptCount (.rateDelay :: failTrace 0 maxRetries) = maxRetries := by
  rcases reqLoop_all_fail outcomes maxRetries 0 hpos
    (fun j _ hj2 => hfail j (by omega)) with ⟨e, he, hloop⟩
  refine ⟨e, by simpa using he, ?_, ?_⟩
  · unfold rateLimitedRequest
    rw [hloop]
  · have h := attemptCount_failTrace maxRetries 0
    simp [attemptCount, List.filter_cons, isAttempt] at *
    omega

/-- C3 witness: at a concrete always-connect-error oracle with
max_retries = 2 the amended exhaustion theorem applies. -/
theorem C3_transport_exhaustion_witness :
    ∃ e, (fun _ => AttemptRes.fail .connectErr) (2 - 1) = AttemptRes.fail e ∧
      rateLimitedRequest (fun _ => AttemptRes.fail .connectErr) 2 =
        (.error (.raised e), .rateDelay :: failTrace 0 2) ∧
      attemptCount (.rateDelay :: failTrace 0 2) = 2 :=
  C3_transport_exhaustion (fun _ => .fail .connectErr) 2 (by omega)
    (fun j _ => ⟨.connectErr, rfl⟩)

/-- Every non-empty `reqLoop` trace starts with its first attempt. -/
theorem reqLoop_head (outcomes : Nat → AttemptRes) (a fuel : Nat) (h : 1 ≤ fuel) :
    ∃ t, (reqLoop outcomes a fuel).2 = .attempt a :: t := by
  cases fuel with
  | zero => omega
  | succ f =>
    rw [reqLoop_succ]
    cases outcomes a with
    | ok body => exact ⟨[], rfl⟩
    | fail e =>
      by_cases hf : f = 0
      · simp only [hf, if_pos]
        exact ⟨[], rfl⟩
      · simp only [if_neg hf]
        exact ⟨_, rfl⟩

/-- The backoff pattern sits between consecutive failing attempts. -/
theorem reqLoop_backoff_between (outcomes : Nat → AttemptRes) :
    ∀ (i a fuel : Nat), (∀ j, a ≤ j → j ≤ a + i → ∃ e, outcomes j = .fail e) →
    i + 1 < fuel →
    [TAct.attempt (a + i), .backoff ((a + i + 1) * 2), .attempt (a + i + 1)] <:+:
      (reqLoop outcomes a fuel).2 := by
  intro i
  induction i with
  | zero =>
    intro a fuel hfail hlt
    rcases hfail a (Nat.le_refl a) (by omega) with ⟨e, he⟩
    cases fuel with
    | zero => omega
    | succ f =>
      rw [reqLoop_succ, he]
      dsimp only
      rw [if_neg (by omega : ¬ f = 0)]
      rcases reqLoop_head outcomes (a + 1) f (by omega) with ⟨t, ht⟩
      refine ⟨[], t, ?_⟩
      simp [ht]
  | succ i ih =>
    intro a fuel hfail hlt
    rcases hfail a (Nat.le_refl a) (by omega) with ⟨e, he⟩
    cases fuel with
    | zero => omega
    | succ f =>
      rw [reqLoop_succ, he]
      dsimp only
      rw [if_neg (by omega : ¬ f = 0)]
      have hrec := ih (a + 1) f
        (fun j hj1 hj2 => hfail j (by omega) (by omega)) (by omega)
      have heq : a + 1 + i = a + (i + 1) := by omega
      rw [heq] at hrec
      exact hrec.trans ⟨[.attempt a, .backoff ((a + 1) * 2)], [], by simp⟩

/-- C9: For every transient request failure at 0-based attempt index i with
attempts remaining (all attempts up to i failing, i + 1 < max_retries), the
transport waits (i + 1) * 2 seconds between attempt i and attempt i + 1. -/
theorem C9_backoff_wait (outcomes : Nat → AttemptRes) (maxRetries i : Nat)
    (hfail : ∀ j, j ≤ i → ∃ e, outcomes j = .fail e)
    (hrem : i + 1 < maxRetries) :
    [TAct.attempt i, .backoff ((i + 1) * 2), .attempt (i + 1)] <:+:
      (rateLimitedRequest outcomes maxRetries).2 := by
  have h := reqLoop_backoff_between outcomes i 0 maxRetries
    (fun j hj1 hj2 => hfail j (by omega)) (by omega)
  simp only [Nat.zero_add] at h
  unfold rateLimitedRequest
  exact h.trans ⟨[.rateDelay], [], by simp⟩

/-- C9 witness: with an always-timeout oracle and max_retries = 3, the
2-second backoff sits between attempts 0 and 1 of the concrete trace. -/
theorem C9_backoff_wait_witness :
    [TAct.attempt 0, .backoff ((0 + 1) * 2), .attempt (0 + 1)] <:+:
      (rateLimitedRequest (fun _ => AttemptRes.fail .readTimeout) 3).2 :=
  C9_backoff_wait (fun _ => .fail .readTimeout) 3 0
    (fun j _ => ⟨.readTimeout, rfl⟩) (by omega)

/-- When every attempt is rejected, the HC Services retry loop exhausts the
bound, raising `CaptchaError`, and its trace re-runs session init and
challenge fetch before every submit. -/
theorem hcLoop_all_rejected (responses : Nat → String) :
    ∀ fuel a, (∀ j, a ≤ j → j < a + fuel → hcRejected (responses j) = true) →
    hcLoop responses a fuel = (.error (), hcTraceFrom a fuel) := by
  intro fuel
  induction fuel with
  | zero => intro a _; rfl
  | succ f ih =>
    intro a hrej
    have hstep : hcLoop responses a (f + 1) =
        (if hcRejected (responses a) then
          ((hcLoop responses (a + 1) f).1,
            [PAct.initSession, PAct.fetchChallenge, PAct.submit a] ++
              (hcLoop responses (a + 1) f).2)
        else (.ok (responses a), [PAct.initSession, PAct.fetchChallenge, PAct.submit a])) :=
      rfl
    rw [hstep, if_pos (hrej a (Nat.le_refl a) (by omega)),
      ih (a + 1) (fun j hj1 hj2 => hrej j (by omega) (by omega))]
    rfl

/-- When every solver answer is non-empty and every validation fails, the
judgments captcha loop completes without success and validates once per
attempt. -/
theorem judgmentsCaptchaLoop_all_rejected (solves : Nat → String) (valids : Nat → Bool) :
    ∀ fuel a, (∀ j, a ≤ j → j < a + fuel → solves j ≠ "" ∧ valids j = false) →
    judgmentsCaptchaLoop solves valids a fuel = (none, jTraceFrom a fuel) := by
  intro fuel
  induction fuel with
  | zero => intro a _; rfl
  | succ f ih =>
    intro a hrej
    rcases hrej a (Nat.le_refl a) (by omega) with ⟨hne, hval⟩
    have hstep : judgmentsCaptchaLoop solves valids a (f + 1) =
        (if solves a = "" then
          ((judgmentsCaptchaLoop solves valids (a + 1) f).1,
            JAct.fetchChallenge :: (judgmentsCaptchaLoop solves valids (a + 1) f).2)
        else if valids a then (some a, [JAct.fetchChallenge, JAct.validate a])
        else
          ((judgmentsCaptchaLoop solves valids (a + 1) f).1,
            JAct.fetchChallenge :: JAct.validate a ::
              (judgmentsCaptchaLoop solves valids (a + 1) f).2)) :=
      rfl
    rw [hstep, if_neg hne, hval,
      ih (a + 1) (fun j hj1 hj2 => hrej j (by omega) (by omega))]
    rfl

/-- C1 counterexample: the judgment-search protocol with a solver that
always answers "abc" and a portal that rejects all three validations
*returns* the default empty `SearchResult` instead of raising, and its trace
holds exactly one session initialization — the session is never discarded
and re-established between challenge attempts. -/
theorem C1_counterexample :
    judgmentsSearch (fun _ => "abc") (fun _ => false) {} "" 3 =
      ({}, [JAct.initSession, .fetchChallenge, .validate 0, .fetchChallenge, .validate 1,
            .fetchChallenge, .validate 2]) ∧
    ([JAct.initSession, .fetchChallenge, .validate 0, .fetchChallenge, .validate 1,
      .fetchChallenge, .validate 2].count JAct.initSession) = 1 ∧
    ({} : SearchResult).items = [] := by
  refine ⟨by decide, by decide, rfl⟩

/-- C1 (amended): the HC Services protocol implements the claimed policy —
on each rejection it discards the session, re-runs session init and
challenge fetch, and after max_retries = 3 consecutive rejections raises
CaptchaError; the judgment-search protocol instead establishes the session
once, retries only the challenge inside that session, and on exhaustion of
its bound (default 3) returns the default empty SearchResult rather than
raising. -/
theorem C1_retry_policy_amended :
    (∀ responses : Nat → String,
      (∀ j, j < 3 → hcRejected (responses j) = true) →
      postWithCaptchaRetry responses 3 = (.error (), hcTraceFrom 0 3) ∧
      hcTraceFrom 0 3 =
        [.initSession, .fetchChallenge, .submit 0,
         .initSession, .fetchChallenge, .submit 1,
         .initSession, .fetchChallenge, .submit 2]) ∧
    (∀ (solves : Nat → String) (valids : Nat → Bool) (d : Doc) (baseUrl : String),
      (∀ j, j < 3 → solves j ≠ "" ∧ valids j = false) →
      judgmentsSearch solves valids d baseUrl 3 =
        ({}, JAct.initSession :: jTraceFrom 0 3) ∧
      (JAct.initSession :: jTraceFrom 0 3).count JAct.initSession = 1) := by
  constructor
  · intro responses hrej
    refine ⟨?_, by decide⟩
    unfold postWithCaptchaRetry
    exact hcLoop_all_rejected responses 3 0 (fun j _ hj => hrej j (by omega))
  · intro solves valids d baseUrl hrej
    have hloop := judgmentsCaptchaLoop_all_rejected solves valids 3 0
      (fun j _ hj => hrej j (by omega))
    refine ⟨?_, by decide⟩
    unfold judgmentsSearch
    rw [hloop]

/-- C1 witness: the theorem applies to the concrete always-rejected runs of
both protocols. -/
theorem C1_retry_policy_amended_witness :
    (postWithCaptchaRetry (fun _ => "\"Invalid Captcha\"") 3 = (.error (), hcTraceFrom 0 3) ∧
      hcTraceFrom 0 3 =
        [.initSession, .fetchChallenge, .submit 0,
         .initSession, .fetchChallenge, .submit 1,
         .initSession, .fetchChallenge, .submit 2]) ∧
    (judgmentsSearch (fun _ => "xyz") (fun _ => false) {} "" 3 =
        ({}, JAct.initSession :: jTraceFrom 0 3) ∧
      (JAct.initSession :: jTraceFrom 0 3).count JAct.initSession = 1) :=
  ⟨C1_retry_policy_amended.1 (fun _ => "\"Invalid Captcha\"")
     (fun _ _ => (by decide : hcRejected "\"Invalid Captcha\"" = true)),
   C1_retry_policy_amended.2 (fun _ => "xyz") (fun _ => false) {} ""
     (fun _ _ => ⟨(by decide : ("xyz" : String) ≠ ""), rfl⟩)⟩

/-- C10 counterexample: on a document with no table, `parse_judgment_search`
returns the dataclass-default `SearchResult()` whose page_size is 10, not
the number of parsed judgment rows (0) — so "in every case sets page_size to
the number of parsed judgment rows" fails. -/
theorem C10_counterexample :
    (parseJudgmentSearch {} "" 1).page_size = 10 ∧
    (parseJudgmentSearch {} "" 1).items.length = 0 ∧
    (10 : Int) ≠ 0 := by
  refine ⟨rfl, rfl, by decide⟩

/-- C10 (amended): whenever a results table is located, page_size (and the
items) equal the parsed judgment rows, and a zero pagination count makes
total_count equal the row count; when no table is located the parser
returns the default SearchResult, whose page_size is the dataclass default
10. -/
theorem C10_judgment_pagination_amended :
    (∀ (doc : Doc) (baseUrl : String) (page : Int) (t : HTable),
      findTableById doc "resultTable" = some t →
      (parseJudgmentSearch doc baseUrl page).items =
        (t.rows.drop 1).filterMap (judgmentOfRow baseUrl) ∧
      (parseJudgmentSearch doc baseUrl page).page_size =
        (((t.rows.drop 1).filterMap (judgmentOfRow baseUrl)).length : Int) ∧
      (parseTotalCount doc = 0 →
        (parseJudgmentSearch doc baseUrl page).total_count =
          (((t.rows.drop 1).filterMap (judgmentOfRow baseUrl)).length : Int))) ∧
    (∀ (doc : Doc) (baseUrl : String) (page : Int), doc.tables = [] →
      parseJudgmentSearch doc baseUrl page = {} ∧ ({} : SearchResult).page_size = 10) := by
  constructor
  · intro doc baseUrl page t ht
    have hstep : parseJudgmentSearch doc baseUrl page =
        (match findTableById doc "resultTable" with
         | none => {}
         | some t =>
           { items := (t.rows.drop 1).filterMap (judgmentOfRow baseUrl)
             total_count :=
               if parseTotalCount doc ≠ 0 then (parseTotalCount doc : Int)
               else (((t.rows.drop 1).filterMap (judgmentOfRow baseUrl)).length : Int)
             page := page
             page_size := (((t.rows.drop 1).filterMap (judgmentOfRow baseUrl)).length : Int)
             has_next := hasNextPage doc }) := rfl
    rw [hstep, ht]
    refine ⟨rfl, rfl, ?_⟩
    intro h0
    simp [h0]
  · intro doc baseUrl page h
    refine ⟨?_, rfl⟩
    simp [parseJudgmentSearch, findTableById, h]

/-- C10 witness: a concrete results table with a header and one 7-cell row
and no pagination region yields one item, page_size 1 and total_count 1. -/
theorem C10_judgment_pagination_amended_witness :
    (parseJudgmentSearch
        { tables := [{ id := some "resultTable",
                       rows := [{ cells := [{}, {}, {}, {}, {}, {}, {}] },
                                { cells := [{ text := "1" }, { text := "x" },
                                            { strongs := ["T"], text := "T W.P. 1/2024" },
                                            { text := "Delhi High Court" },
                                            { text := "A. Kumar" },
                                            { text := "15-01-2024" },
                                            { anchor := some "/pdf/j.pdf" }] }] }] }
        "b" 1).items =
      (([{ cells := [{ text := "1" }, { text := "x" },
                     { strongs := ["T"], text := "T W.P. 1/2024" },
                     { text := "Delhi High Court" },
                     { text := "A. Kumar" },
                     { text := "15-01-2024" },
                     { anchor := some "/pdf/j.pdf" }] }] : List Row).filterMap
        (judgmentOfRow "b")) ∧
    (parseJudgmentSearch
        { tables := [{ id := some "resultTable",
                       rows := [{ cells := [{}, {}, {}, {}, {}, {}, {}] },
                                { cells := [{ text := "1" }, { text := "x" },
                                            { strongs := ["T"], text := "T W.P. 1/2024" },
                                            { text := "Delhi High Court" },
                                            { text := "A. Kumar" },
                                            { text := "15-01-2024" },
                                            { anchor := some "/pdf/j.pdf" }] }] }] }
        "b" 1).page_size = 1 ∧
    (parseJudgmentSearch
        { tables := [{ id := some "resultTable",
                       rows := [{ cells := [{}, {}, {}, {}, {}, {}, {}] },
                                { cells := [{ text := "1" }, { text := "x" },
                                            { strongs := ["T"], text := "T W.P. 1/2024" },
                                            { text := "Delhi High Court" },
                                            { text := "A. Kumar" },
                                            { text := "15-01-2024" },
                                            { anchor := some "/pdf/j.pdf" }] }] }] }
        "b" 1).total_count = 1 := by
  have h := C10_judgment_pagination_amended.1
    { tables := [{ id := some "resultTable",
                   rows := [{ cells := [{}, {}, {}, {}, {}, {}, {}] },
                            { cells := [{ text := "1" }, { text := "x" },
                                        { strongs := ["T"], text := "T W.P. 1/2024" },
                                        { text := "Delhi High Court" },
                                        { text := "A. Kumar" },
                                        { text := "15-01-2024" },
                                        { anchor := some "/pdf/j.pdf" }] }] }] }
    "b" 1
    { id := some "resultTable",
      rows := [{ cells := [{}, {}, {}, {}, {}, {}, {}] },
               { cells := [{ text := "1" }, { text := "x" },
                           { strongs := ["T"], text := "T W.P. 1/2024" },
                           { text := "Delhi High Court" },
                           { text := "A. Kumar" },
                           { text := "15-01-2024" },
                           { anchor := some "/pdf/j.pdf" }] }] }
    (by decide)
  refine ⟨?_, ?_, ?_⟩
  · exact h.1
  · rw [h.2.1]
    decide
  · rw [h.2.2 (by decide)]
    decide

end BharatCourts
